import Mathlib

/-!
# CryptoPricePredictor — verification of the forecasting core

Shallow embedding of the numeric forecasting engine and the prediction
ledger of `src/app.js` (CryptoPricePredictor v2.1).

Modelling conventions:
* JavaScript `number` (IEEE-754 float64) is modelled by the exact
  rationals `ℚ`; timestamps (`Date.now()` epoch milliseconds) by `ℤ`.
* A JavaScript array is a `List ℚ`; out-of-range indexing, which in the
  source only happens on inputs the theorems exclude, defaults to `0`
  (`List.getD` / `List.getLastD`).
* `Math.sqrt` (used only inside the Bollinger standard deviation) is
  modelled by `ratSqrt`, the integer-square-root approximation that is
  exact on perfect squares.  No theorem below depends on the value this
  function returns: every concrete input evaluated by a proof takes the
  short-series branch of `calcBollinger`, which never reaches the
  standard deviation, and the universally quantified theorems hold for
  every value of the standard deviation.
* Entries that the source stores as `null` are `Option.none`; the
  JavaScript `x || y` fallback (which also triggers on `0`) is `jsOr`.
* Coin identifiers (`"BTC"`, …) are an arbitrary type with decidable
  equality, since the ledger only ever compares them.
-/

/-- Qualitative direction attached to an indicator or to the consensus:
the three strings `"bullish"`, `"bearish"`, `"neutral"` of the source. -/
inductive TrendDir
  | bullish
  | bearish
  | neutral
deriving DecidableEq, Repr

/-! ## Indicator library (`src/app.js` lines 83–155) -/

/-- Tail of the EMA recurrence `r[i] = data[i]*k + r[i-1]*(1-k)`. -/
def emaFrom (k prev : ℚ) : List ℚ → List ℚ
  | [] => []
  | d :: rest =>
    let v := d * k + prev * (1 - k)
    v :: emaFrom k v rest

/-- `ema(data, period)`: seed `data[0]`, smoothing factor `k = 2/(period+1)`.
Empty input is excluded by every caller (the source would produce `NaN`). -/
def ema (data : List ℚ) (period : ℕ) : List ℚ :=
  let k : ℚ := 2 / ((period : ℚ) + 1)
  match data with
  | [] => []
  | d0 :: rest => d0 :: emaFrom k d0 rest

/-- One entry of `sma(data, period)`: `null` while the window is short,
otherwise the mean of the trailing `period` values ending at `i`. -/
def smaAt (data : List ℚ) (period i : ℕ) : Option ℚ :=
  if i < period - 1 then none
  else some ((((List.range period).map fun j => data.getD (i + 1 - period + j) 0).sum)
    / (period : ℚ))

/-- `sma(data, period)` — same length as the input, `null`-padded head. -/
def sma (data : List ℚ) (period : ℕ) : List (Option ℚ) :=
  (List.range data.length).map (smaAt data period)

/-- Consecutive differences `data[i] - data[i-1]`, `i = 1 …`. -/
def deltasOf (data : List ℚ) : List ℚ :=
  (data.zip data.tail).map fun p => p.2 - p.1

/-- Result of `calcRSI`. -/
structure RSIResult where
  value : ℚ
  series : List ℚ
deriving DecidableEq, Repr

/-- The Wilder smoothing loop of `calcRSI` (lines 106–111): state `(ag, al)`,
one output per delta past the seed window. -/
def rsiLoop (period : ℕ) (ag al : ℚ) : List ℚ → List ℚ
  | [] => []
  | d :: rest =>
    let ag' := (ag * ((period : ℚ) - 1) + max d 0) / (period : ℚ)
    let al' := (al * ((period : ℚ) - 1) + max (-d) 0) / (period : ℚ)
    (if al' = 0 then 100 else 100 - 100 / (1 + ag' / al')) :: rsiLoop period ag' al' rest

/-- `calcRSI(data, period)`: neutral `50` below `period+1` points, else the
seeded Wilder recurrence; the reported value is the last series entry. -/
def calcRSI (data : List ℚ) (period : ℕ) : RSIResult :=
  if data.length < period + 1 then ⟨50, []⟩
  else
    let ds := deltasOf data
    let seed := ds.take period
    let gS := (seed.map fun d => if d ≥ 0 then d else 0).sum
    let lS := (seed.map fun d => if d ≥ 0 then 0 else -d).sum
    let series := List.replicate (period + 1) (50 : ℚ) ++
      rsiLoop period (gS / (period : ℚ)) (lS / (period : ℚ)) (ds.drop period)
    ⟨series.getLastD 0, series⟩

/-- Result of `calcMACD`. -/
structure MACDResult where
  line : ℚ
  signal : ℚ
  histogram : ℚ
  histSeries : List ℚ
deriving DecidableEq, Repr

/-- `calcMACD(data)`: EMA(12) − EMA(26), signal = EMA(9) of the line,
histogram = line − signal, all read at the latest element. -/
def calcMACD (data : List ℚ) : MACDResult :=
  let e12 := ema data 12
  let e26 := ema data 26
  let line := (e12.zip e26).map fun p => p.1 - p.2
  let sig := ema line 9
  let hist := (line.zip sig).map fun p => p.1 - p.2
  ⟨line.getLastD 0, sig.getLastD 0, hist.getLastD 0, hist⟩

/-- JavaScript `x || y` on a nullable number: `y` when `x` is `null` or `0`. -/
def jsOr (x : Option ℚ) (y : ℚ) : ℚ :=
  match x with
  | none => y
  | some v => if v = 0 then y else v

/-- JavaScript `x || y` on a number: `y` when `x` is `0`. -/
def jsOrQ (x y : ℚ) : ℚ :=
  if x = 0 then y else x

/-- Model of `Math.sqrt` on `ℚ`: `sqrt(num·den)/den`, with the integer
square root `Nat.sqrt`.  Exact on perfect squares; no theorem of this file
depends on its value elsewhere (see the file header). -/
def ratSqrt (q : ℚ) : ℚ :=
  ((q.num.toNat * q.den).sqrt : ℚ) / (q.den : ℚ)

/-- Result of `calcBollinger`. -/
structure BollingerResult where
  upper : List (Option ℚ)
  mid : List (Option ℚ)
  lower : List (Option ℚ)
  bbWidth : ℚ
  pctB : ℚ
  lastUpper : ℚ
  lastLower : ℚ
  lastMid : ℚ
deriving DecidableEq, Repr

/-- Population standard deviation of the `period`-window ending at `i`
around the window mean `m` (the body of the `calcBollinger` loop). -/
def bollStdAt (data : List ℚ) (period i : ℕ) (m : ℚ) : ℚ :=
  ratSqrt ((((List.range period).map fun j => (data.getD (i + 1 - period + j) 0 - m) ^ 2).sum)
    / (period : ℚ))

/-- `calcBollinger(data, period, mult)` (lines 123–135): rolling mean ±
`mult`·std with `null` heads; the last upper/lower/mid fall back to
`last*1.02` / `last*0.98` / `last` through the JavaScript `||`. -/
def calcBollinger (data : List ℚ) (period : ℕ) (mult : ℚ) : BollingerResult :=
  let mid := sma data period
  let upper := (List.range data.length).map fun i =>
    match mid.getD i none with
    | none => none
    | some m => some (m + mult * bollStdAt data period i m)
  let lower := (List.range data.length).map fun i =>
    match mid.getD i none with
    | none => none
    | some m => some (m - mult * bollStdAt data period i m)
  let lastPrice := data.getLastD 0
  let lu := jsOr (upper.getLastD none) (lastPrice * 1.02)
  let ll := jsOr (lower.getLastD none) (lastPrice * 0.98)
  let lm := jsOr (mid.getLastD none) lastPrice
  ⟨upper, mid, lower, (lu - ll) / lm, (lastPrice - ll) / jsOrQ (lu - ll) 1, lu, ll, lm⟩

/-- Result of `calcStochastic`. -/
structure StochResult where
  k : ℚ
  d : ℚ
deriving DecidableEq, Repr

/-- %K at index `i`: `50` while the window is short or flat, otherwise the
position of the close inside the highest-high/lowest-low window. -/
def stochKAt (highs lows closes : List ℚ) (kP i : ℕ) : ℚ :=
  if i < kP - 1 then 50
  else
    let winH := (List.range kP).map fun j => highs.getD (i + 1 - kP + j) 0
    let winL := (List.range kP).map fun j => lows.getD (i + 1 - kP + j) 0
    let hh := winH.foldr max (winH.getLastD 0)
    let ll := winL.foldr min (winL.getLastD 0)
    if hh = ll then 50 else (closes.getD i 0 - ll) / (hh - ll) * 100

/-- `calcStochastic(highs, lows, closes, kP, dP)`: %K series and its
`dP`-SMA; the source's `kV.map(v => v ?? 50)` is the identity because every
%K entry is a number, and the last %D falls back to `50` through `??`. -/
def calcStochastic (highs lows closes : List ℚ) (kP dP : ℕ) : StochResult :=
  let kV := (List.range closes.length).map (stochKAt highs lows closes kP)
  let dV := sma kV dP
  ⟨kV.getLastD 0, (dV.getLastD none).getD 50⟩

/-- Result of `calcATR`. -/
structure ATRResult where
  value : ℚ
  series : List ℚ
deriving DecidableEq, Repr

/-- True range at index `i ≥ 1`:
`max(high-low, |high-prevClose|, |low-prevClose|)`. -/
def trAt (highs lows closes : List ℚ) (i : ℕ) : ℚ :=
  max (highs.getD i 0 - lows.getD i 0)
    (max |highs.getD i 0 - closes.getD (i - 1) 0| |lows.getD i 0 - closes.getD (i - 1) 0|)

/-- The list `trs` of `calcATR`: first element `high[0]-low[0]`, then the
true range of every further index. -/
def trueRanges (highs lows closes : List ℚ) : List ℚ :=
  (highs.getD 0 0 - lows.getD 0 0) ::
    (List.range (closes.length - 1)).map fun j => trAt highs lows closes (j + 1)

/-- `calcATR(highs, lows, closes, period)`: EMA-smoothed true range. -/
def calcATR (highs lows closes : List ℚ) (period : ℕ) : ATRResult :=
  let trs := trueRanges highs lows closes
  let a := ema trs period
  ⟨a.getLastD 0, a⟩

/-! ## Prediction engine (`computePrediction`, lines 158–216) -/

/-- `emaSignal = 0.6·(ema8-ema21)/price + 0.4·(ema21-ema50)/price`. -/
def emaSignalOf (price : ℚ) (hCloses : List ℚ) : ℚ :=
  let e8 := (ema hCloses 8).getLastD 0
  let e21 := (ema hCloses 21).getLastD 0
  let e50 := (ema hCloses 50).getLastD 0
  (e8 - e21) / price * 0.6 + (e21 - e50) / price * 0.4

/-- The piecewise RSI-level → signal map of lines 165–169. -/
def rsiSignalOf (v : ℚ) : ℚ :=
  if v > 75 then -(v - 70) / 100
  else if v > 60 then -(v - 60) / 200
  else if v < 25 then (30 - v) / 100
  else if v < 40 then (40 - v) / 200
  else 0

/-- `macdSignal = histogram / price`. -/
def macdSignalOf (price : ℚ) (hCloses : List ℚ) : ℚ :=
  (calcMACD hCloses).histogram / price

/-- The piecewise %B → signal map of lines 175–178. -/
def bbSignalOf (p : ℚ) : ℚ :=
  if p > 0.95 then -(p - 0.8) * 0.5
  else if p < 0.05 then (0.2 - p) * 0.5
  else (0.5 - p) * 0.1

/-- The stochastic cross signal of lines 181–183. -/
def stochSignalOf (s : StochResult) : ℚ :=
  if s.k > 80 ∧ s.k > s.d then -0.02
  else if s.k < 20 ∧ s.k < s.d then 0.02
  else 0

/-- `atrPct = ATR / price`. -/
def atrPctOf (price : ℚ) (hHighs hLows hCloses : List ℚ) : ℚ :=
  (calcATR hHighs hLows hCloses 14).value / price

/-- `meanRevSignal = (dailyAvg − price)/dailyAvg` with the plain mean of the
daily closes. -/
def meanRevSignalOf (price : ℚ) (dCloses : List ℚ) : ℚ :=
  let dailyAvg := dCloses.sum / (dCloses.length : ℚ)
  (dailyAvg - price) / dailyAvg

/-- The short-horizon raw composite score `mRaw` (line 191). -/
def mRawShort (price : ℚ) (hCloses dCloses hHighs hLows : List ℚ) : ℚ :=
  emaSignalOf price hCloses * 0.30 + rsiSignalOf (calcRSI hCloses 14).value * 0.10 +
    macdSignalOf price hCloses * 0.25 + bbSignalOf (calcBollinger hCloses 20 2).pctB * 0.15 +
    stochSignalOf (calcStochastic hHighs hLows hCloses 14 3) * 0.10 +
    meanRevSignalOf price dCloses * 0.05

/-- The long-horizon raw composite score `dRaw` (line 194). -/
def mRawLong (price : ℚ) (hCloses dCloses hHighs hLows : List ℚ) : ℚ :=
  emaSignalOf price hCloses * 0.20 + rsiSignalOf (calcRSI hCloses 14).value * 0.15 +
    macdSignalOf price hCloses * 0.15 + bbSignalOf (calcBollinger hCloses 20 2).pctB * 0.15 +
    stochSignalOf (calcStochastic hHighs hLows hCloses 14 3) * 0.10 +
    meanRevSignalOf price dCloses * 0.20

/-- One per-indicator reading of the `signals` map. -/
structure SignalInfo where
  value : ℚ
  direction : TrendDir
  strength : ℚ
deriving DecidableEq, Repr

/-- The seven-indicator `signals` map of lines 197–205. -/
structure Signals where
  EMA : SignalInfo
  RSI : SignalInfo
  MACD : SignalInfo
  BB : SignalInfo
  Stoch : SignalInfo
  ATR : SignalInfo
  MeanRev : SignalInfo
deriving DecidableEq, Repr

/-- `Object.values(signals)` in declaration order. -/
def signalsList (s : Signals) : List SignalInfo :=
  [s.EMA, s.RSI, s.MACD, s.BB, s.Stoch, s.ATR, s.MeanRev]

/-- The consensus of lines 207–209: strict majority of bullish over bearish
directions, ties neutral. -/
def consensusOf (s : Signals) : TrendDir :=
  let bull := ((signalsList s).filter fun x => x.direction == TrendDir.bullish).length
  let bear := ((signalsList s).filter fun x => x.direction == TrendDir.bearish).length
  if bull > bear then .bullish else if bear > bull then .bearish else .neutral

/-- Majority vote on a bare list of directions (the spec's formulation of
the consensus rule, against which `consensusOf` is checked). -/
def majorityVote (ds : List TrendDir) : TrendDir :=
  let bull := ds.countP (· == TrendDir.bullish)
  let bear := ds.countP (· == TrendDir.bearish)
  if bull > bear then .bullish else if bear > bull then .bearish else .neutral

/-- The full result of `computePrediction`. -/
structure Prediction where
  oneMinute : ℚ
  oneDay : ℚ
  rsi : ℚ
  macd : MACDResult
  bb : BollingerResult
  stoch : StochResult
  atr : ℚ
  atrPct : ℚ
  ema8Last : ℚ
  ema21Last : ℚ
  ema50Last : ℚ
  signals : Signals
  overall : TrendDir
deriving DecidableEq, Repr

/-- `computePrediction(price, hCloses, dCloses, hHighs, hLows)`:
signal fusion, the two volatility-scaled forecasts, the per-indicator
direction/strength map and the majority consensus. -/
def computePrediction (price : ℚ) (hCloses dCloses hHighs hLows : List ℚ) : Prediction :=
  let rsiData := calcRSI hCloses 14
  let macd := calcMACD hCloses
  let bb := calcBollinger hCloses 20 2
  let stoch := calcStochastic hHighs hLows hCloses 14 3
  let atr := calcATR hHighs hLows hCloses 14
  let eSig := emaSignalOf price hCloses
  let rSig := rsiSignalOf rsiData.value
  let mSig := macdSignalOf price hCloses
  let bSig := bbSignalOf bb.pctB
  let sSig := stochSignalOf stoch
  let mrSig := meanRevSignalOf price dCloses
  let aPct := atrPctOf price hHighs hLows hCloses
  let sigs : Signals :=
    { EMA := ⟨eSig, if eSig ≥ 0 then .bullish else .bearish, min (|eSig| * 500) 100⟩
      RSI := ⟨rsiData.value,
        if rSig > 0 then .bullish else if rSig < 0 then .bearish else .neutral,
        min (|rSig| * 400) 100⟩
      MACD := ⟨macd.histogram, if macd.histogram ≥ 0 then .bullish else .bearish,
        min (|mSig| * 2000) 100⟩
      BB := ⟨bb.pctB, if bSig > 0 then .bullish else if bSig < 0 then .bearish else .neutral,
        min (|bSig| * 300) 100⟩
      Stoch := ⟨stoch.k, if sSig > 0 then .bullish else if sSig < 0 then .bearish else .neutral,
        |sSig| * 2500⟩
      ATR := ⟨atr.value, .neutral, min (aPct * 1000) 100⟩
      MeanRev := ⟨mrSig, if mrSig > 0 then .bullish else .bearish, min (|mrSig| * 300) 100⟩ }
  { oneMinute := price * (1 + mRawShort price hCloses dCloses hHighs hLows * min (aPct * 8) 0.03)
    oneDay := price * (1 + mRawLong price hCloses dCloses hHighs hLows * min (aPct * 80) 0.15)
    rsi := rsiData.value
    macd := macd
    bb := bb
    stoch := stoch
    atr := atr.value
    atrPct := aPct
    ema8Last := (ema hCloses 8).getLastD 0
    ema21Last := (ema hCloses 21).getLastD 0
    ema50Last := (ema hCloses 50).getLastD 0
    signals := sigs
    overall := consensusOf sigs }

/-! ## Prediction ledger (`recordPrediction` / `resolveHistory` /
`getHistoryStats`, lines 227–301) -/

/-- One ledger entry (the object pushed by `recordPrediction`). -/
structure HistEntry (α : Type) where
  ts : ℤ
  coin : α
  price : ℚ
  pred1m : ℚ
  pred1d : ℚ
  actual1m : Option ℚ
  actual1mTs : Option ℤ
  actual1d : Option ℚ
  actual1dTs : Option ℤ
deriving DecidableEq, Repr

/-- `MAX_HISTORY` (line 36). -/
def MAX_HISTORY : ℕ := 100

/-- `[...history].reverse().find(h => h.coin === coinId)`: the most recent
entry recorded for the coin. -/
def lastForCoin {α : Type} [DecidableEq α] (h : List (HistEntry α)) (coinId : α) :
    Option (HistEntry α) :=
  h.reverse.find? fun e => e.coin == coinId

/-- `recordPrediction(coinId, price, pred1m, pred1d)` at time `now`: skip
when the latest entry for the coin is younger than 55 s, otherwise append a
pending entry and trim to the newest `MAX_HISTORY` entries. -/
def recordPrediction {α : Type} [DecidableEq α] (now : ℤ) (coinId : α)
    (price pred1m pred1d : ℚ) (history : List (HistEntry α)) : List (HistEntry α) :=
  if (lastForCoin history coinId).any (fun last => now - last.ts < 55000) then history
  else
    let h2 := history ++ [⟨now, coinId, price, pred1m, pred1d, none, none, none, none⟩]
    if h2.length > MAX_HISTORY then h2.drop (h2.length - MAX_HISTORY) else h2

/-- The 1-minute leg of the `resolveHistory` loop body: resolve when still
pending, 60 s have elapsed and a current price is available. -/
def resolve1m {α : Type} (now : ℤ) (lookup : α → Option ℚ) (e : HistEntry α) : HistEntry α :=
  if e.actual1m = none ∧ now - e.ts ≥ 60000 then
    match lookup e.coin with
    | some p => { e with actual1m := some p, actual1mTs := some now }
    | none => e
  else e

/-- The 1-day leg of the `resolveHistory` loop body: as `resolve1m` with a
24 h horizon. -/
def resolve1d {α : Type} (now : ℤ) (lookup : α → Option ℚ) (e : HistEntry α) : HistEntry α :=
  if e.actual1d = none ∧ now - e.ts ≥ 86400000 then
    match lookup e.coin with
    | some p => { e with actual1d := some p, actual1dTs := some now }
    | none => e
  else e

/-- The full loop body: the 1-minute check, then the 1-day check on the
updated entry (the source mutates the entry in place in that order). -/
def resolveEntry {α : Type} (now : ℤ) (lookup : α → Option ℚ) (e : HistEntry α) : HistEntry α :=
  resolve1d now lookup (resolve1m now lookup e)

/-- `resolveHistory` at time `now` with the current-price lookup (the
source's `COINS.find` + `coinData[..].ticker`, `none` = no data). -/
def resolveHistory {α : Type} (now : ℤ) (lookup : α → Option ℚ) (h : List (HistEntry α)) :
    List (HistEntry α) :=
  h.map (resolveEntry now lookup)

/-- The fields `resolveHistory` never writes (creation time, coin, price at
creation and both forecasts). -/
def entryCore {α : Type} (e : HistEntry α) : ℤ × α × ℚ × ℚ × ℚ :=
  (e.ts, e.coin, e.price, e.pred1m, e.pred1d)

/-- `predDir`/`actDir` of `getHistoryStats`: `+1` when at or above the
creation price, `-1` below. -/
def jsDir (x p : ℚ) : ℤ :=
  if x ≥ p then 1 else -1

/-- Result of `getHistoryStats`. -/
structure HistoryStats where
  total : ℕ
  resolved1m : ℕ
  resolved1d : ℕ
  accuracy1m : Option ℚ
  accuracy1d : Option ℚ
  avgErr1m : Option ℚ
  avgErr1d : Option ℚ
deriving DecidableEq, Repr

/-- `getHistoryStats(filter)`: counts, directional hit rates and mean
absolute percentage errors over the resolved entries; `none` filter is the
source's `"ALL"`. -/
def getHistoryStats {α : Type} [DecidableEq α] (filter : Option α) (h : List (HistEntry α)) :
    HistoryStats :=
  let items : List (HistEntry α) := match filter with
    | none => h
    | some c => h.filter fun e => e.coin == c
  let resolved1m : List (HistEntry α) := items.filter fun e => e.actual1m ≠ none
  let resolved1d : List (HistEntry α) := items.filter fun e => e.actual1d ≠ none
  let hit1m := (resolved1m.filter fun e =>
    jsDir e.pred1m e.price = jsDir (e.actual1m.getD 0) e.price).length
  let hit1d := (resolved1d.filter fun e =>
    jsDir e.pred1d e.price = jsDir (e.actual1d.getD 0) e.price).length
  let totalErr1m := (resolved1m.map fun e => |e.pred1m - e.actual1m.getD 0| / e.price * 100).sum
  let totalErr1d := (resolved1d.map fun e => |e.pred1d - e.actual1d.getD 0| / e.price * 100).sum
  { total := items.length
    resolved1m := resolved1m.length
    resolved1d := resolved1d.length
    accuracy1m := if resolved1m.length > 0
      then some ((hit1m : ℚ) / (resolved1m.length : ℚ) * 100) else none
    accuracy1d := if resolved1d.length > 0
      then some ((hit1d : ℚ) / (resolved1d.length : ℚ) * 100) else none
    avgErr1m := if resolved1m.length > 0
      then some (totalErr1m / (resolved1m.length : ℚ)) else none
    avgErr1d := if resolved1d.length > 0
      then some (totalErr1d / (resolved1d.length : ℚ)) else none }

/-! ## Ledger lemmas -/

theorem resolve1m_of_some {α : Type} (now : ℤ) (lk : α → Option ℚ) (e : HistEntry α)
    (v : ℚ) (h : e.actual1m = some v) : resolve1m now lk e = e := by
  unfold resolve1m
  rw [if_neg]
  simp [h]

theorem resolve1d_of_some {α : Type} (now : ℤ) (lk : α → Option ℚ) (e : HistEntry α)
    (v : ℚ) (h : e.actual1d = some v) : resolve1d now lk e = e := by
  unfold resolve1d
  rw [if_neg]
  simp [h]

theorem resolve1m_core {α : Type} (now : ℤ) (lk : α → Option ℚ) (e : HistEntry α) :
    (resolve1m now lk e).ts = e.ts ∧ (resolve1m now lk e).coin = e.coin ∧
    (resolve1m now lk e).price = e.price ∧ (resolve1m now lk e).pred1m = e.pred1m ∧
    (resolve1m now lk e).pred1d = e.pred1d ∧ (resolve1m now lk e).actual1d = e.actual1d ∧
    (resolve1m now lk e).actual1dTs = e.actual1dTs := by
  unfold resolve1m
  split
  · cases lk e.coin <;> simp
  · simp

theorem resolve1d_core {α : Type} (now : ℤ) (lk : α → Option ℚ) (e : HistEntry α) :
    (resolve1d now lk e).ts = e.ts ∧ (resolve1d now lk e).coin = e.coin ∧
    (resolve1d now lk e).price = e.price ∧ (resolve1d now lk e).pred1m = e.pred1m ∧
    (resolve1d now lk e).pred1d = e.pred1d ∧ (resolve1d now lk e).actual1m = e.actual1m ∧
    (resolve1d now lk e).actual1mTs = e.actual1mTs := by
  unfold resolve1d
  split
  · cases lk e.coin <;> simp
  · simp

theorem resolve1m_idem {α : Type} (now : ℤ) (lk : α → Option ℚ) (e : HistEntry α) :
    resolve1m now lk (resolve1m now lk e) = resolve1m now lk e := by
  unfold resolve1m
  split
  · rename_i hc
    cases hl : lk e.coin
    · simp only [hl]
      rw [if_pos hc]
    · simp only [hl]
      rw [if_neg]
      simp
  · rfl

theorem resolve1d_idem {α : Type} (now : ℤ) (lk : α → Option ℚ) (e : HistEntry α) :
    resolve1d now lk (resolve1d now lk e) = resolve1d now lk e := by
  unfold resolve1d
  split
  · rename_i hc
    cases hl : lk e.coin
    · simp only [hl]
      rw [if_pos hc]
    · simp only [hl]
      rw [if_neg]
      simp
  · rfl

theorem resolve1m_resolve1d_comm {α : Type} (now : ℤ) (lk : α → Option ℚ) (e : HistEntry α) :
    resolve1m now lk (resolve1d now lk e) = resolve1d now lk (resolve1m now lk e) := by
  rcases e with ⟨ts, coin, price, p1, p2, a1m, a1mTs, a1d, a1dTs⟩
  unfold resolve1m resolve1d
  cases hl : lk coin <;> cases a1m <;> cases a1d <;> split_ifs <;> simp_all

theorem resolveEntry_idem {α : Type} (now : ℤ) (lk : α → Option ℚ) (e : HistEntry α) :
    resolveEntry now lk (resolveEntry now lk e) = resolveEntry now lk e := by
  unfold resolveEntry
  rw [resolve1m_resolve1d_comm, resolve1m_idem, resolve1d_idem]

theorem resolveEntry_core {α : Type} (now : ℤ) (lk : α → Option ℚ) (e : HistEntry α) :
    entryCore (resolveEntry now lk e) = entryCore e := by
  unfold resolveEntry entryCore
  have h1 := resolve1m_core now lk e
  have h2 := resolve1d_core now lk (resolve1m now lk e)
  simp only [h1.1, h1.2.1, h1.2.2.1, h1.2.2.2.1, h1.2.2.2.2.1,
    h2.1, h2.2.1, h2.2.2.1, h2.2.2.2.1, h2.2.2.2.2.1]

theorem resolve1m_not_elapsed {α : Type} (now : ℤ) (lk : α → Option ℚ) (e : HistEntry α)
    (h : ¬ now - e.ts ≥ 60000) : resolve1m now lk e = e := by
  unfold resolve1m
  rw [if_neg]
  simp [h]

theorem resolve1d_not_elapsed {α : Type} (now : ℤ) (lk : α → Option ℚ) (e : HistEntry α)
    (h : ¬ now - e.ts ≥ 86400000) : resolve1d now lk e = e := by
  unfold resolve1d
  rw [if_neg]
  simp [h]

theorem resolve1m_no_data {α : Type} (now : ℤ) (lk : α → Option ℚ) (e : HistEntry α)
    (h : lk e.coin = none) : resolve1m now lk e = e := by
  unfold resolve1m
  split
  · rw [h]
  · rfl

theorem resolve1d_no_data {α : Type} (now : ℤ) (lk : α → Option ℚ) (e : HistEntry α)
    (h : lk e.coin = none) : resolve1d now lk e = e := by
  unfold resolve1d
  split
  · rw [h]
  · rfl

theorem resolve1m_resolves {α : Type} (now : ℤ) (lk : α → Option ℚ) (e : HistEntry α)
    (p : ℚ) (h1 : e.actual1m = none) (h2 : now - e.ts ≥ 60000) (h3 : lk e.coin = some p) :
    resolve1m now lk e = { e with actual1m := some p, actual1mTs := some now } := by
  unfold resolve1m
  rw [if_pos ⟨h1, h2⟩, h3]

theorem resolve1d_resolves {α : Type} (now : ℤ) (lk : α → Option ℚ) (e : HistEntry α)
    (p : ℚ) (h1 : e.actual1d = none) (h2 : now - e.ts ≥ 86400000) (h3 : lk e.coin = some p) :
    resolve1d now lk e = { e with actual1d := some p, actual1dTs := some now } := by
  unfold resolve1d
  rw [if_pos ⟨h1, h2⟩, h3]

/-- C7: per entry and per horizon, `resolveHistory`'s loop body moves a
horizon from pending to resolved exactly when the horizon has elapsed and a
price is available; a missing price leaves it pending; a resolved horizon
never becomes pending again. -/
theorem claim_C7_state_machine {α : Type} (now : ℤ) (lk : α → Option ℚ) (e : HistEntry α) :
    ((∀ v, e.actual1m = some v → (resolveEntry now lk e).actual1m = some v) ∧
     (e.actual1m = none → now - e.ts < 60000 → (resolveEntry now lk e).actual1m = none) ∧
     (e.actual1m = none → lk e.coin = none → (resolveEntry now lk e).actual1m = none) ∧
     (∀ p, e.actual1m = none → now - e.ts ≥ 60000 → lk e.coin = some p →
       (resolveEntry now lk e).actual1m = some p ∧
       (resolveEntry now lk e).actual1mTs = some now)) ∧
    ((∀ v, e.actual1d = some v → (resolveEntry now lk e).actual1d = some v) ∧
     (e.actual1d = none → now - e.ts < 86400000 → (resolveEntry now lk e).actual1d = none) ∧
     (e.actual1d = none → lk e.coin = none → (resolveEntry now lk e).actual1d = none) ∧
     (∀ p, e.actual1d = none → now - e.ts ≥ 86400000 → lk e.coin = some p →
       (resolveEntry now lk e).actual1d = some p ∧
       (resolveEntry now lk e).actual1dTs = some now)) := by
  have hm := resolve1m_core now lk e
  have hd := resolve1d_core now lk (resolve1m now lk e)
  refine ⟨⟨?_, ?_, ?_, ?_⟩, ⟨?_, ?_, ?_, ?_⟩⟩
  · intro v hv
    unfold resolveEntry
    rw [hd.2.2.2.2.2.1, resolve1m_of_some now lk e v hv, hv]
  · intro h1 h2
    unfold resolveEntry
    rw [hd.2.2.2.2.2.1, resolve1m_not_elapsed now lk e (by omega), h1]
  · intro h1 h2
    unfold resolveEntry
    rw [hd.2.2.2.2.2.1, resolve1m_no_data now lk e h2, h1]
  · intro p h1 h2 h3
    unfold resolveEntry
    rw [hd.2.2.2.2.2.1, hd.2.2.2.2.2.2, resolve1m_resolves now lk e p h1 h2 h3]
    exact ⟨rfl, rfl⟩
  · intro v hv
    unfold resolveEntry
    rw [resolve1d_of_some now lk (resolve1m now lk e) v (by rw [hm.2.2.2.2.2.1, hv]),
      hm.2.2.2.2.2.1, hv]
  · intro h1 h2
    unfold resolveEntry
    rw [resolve1d_not_elapsed now lk (resolve1m now lk e) (by rw [hm.1]; omega),
      hm.2.2.2.2.2.1, h1]
  · intro h1 h2
    unfold resolveEntry
    rw [resolve1d_no_data now lk (resolve1m now lk e) (by rw [hm.2.1]; exact h2),
      hm.2.2.2.2.2.1, h1]
  · intro p h1 h2 h3
    unfold resolveEntry
    rw [resolve1d_resolves now lk (resolve1m now lk e) p (by rw [hm.2.2.2.2.2.1]; exact h1)
      (by rw [hm.1]; exact h2) (by rw [hm.2.1]; exact h3)]
    exact ⟨rfl, rfl⟩

/-- C8: resolving twice at one time with one price lookup equals resolving
once, and the fields of an already resolved horizon survive untouched. -/
theorem claim_C8_resolve_idempotent {α : Type} (now : ℤ) (lk : α → Option ℚ)
    (h : List (HistEntry α)) :
    resolveHistory now lk (resolveHistory now lk h) = resolveHistory now lk h ∧
    (∀ e ∈ h, ∀ v t, e.actual1m = some v → e.actual1mTs = some t →
      (resolveEntry now lk e).actual1m = some v ∧
      (resolveEntry now lk e).actual1mTs = some t) ∧
    (∀ e ∈ h, ∀ v t, e.actual1d = some v → e.actual1dTs = some t →
      (resolveEntry now lk e).actual1d = some v ∧
      (resolveEntry now lk e).actual1dTs = some t) := by
  refine ⟨?_, ?_, ?_⟩
  · unfold resolveHistory
    rw [List.map_map]
    exact List.map_congr_left fun e _ => resolveEntry_idem now lk e
  · intro e _ v t hv ht
    have hd := resolve1d_core now lk (resolve1m now lk e)
    unfold resolveEntry
    rw [hd.2.2.2.2.2.1, hd.2.2.2.2.2.2, resolve1m_of_some now lk e v hv]
    exact ⟨hv, ht⟩
  · intro e _ v t hv ht
    have hm := resolve1m_core now lk e
    have h1d : resolve1d now lk (resolve1m now lk e) = resolve1m now lk e :=
      resolve1d_of_some now lk (resolve1m now lk e) v (by rw [hm.2.2.2.2.2.1, hv])
    unfold resolveEntry
    rw [h1d]
    constructor
    · rw [hm.2.2.2.2.2.1, hv]
    · rw [hm.2.2.2.2.2.2]
      exact ht

/-- C10: `resolveHistory` only writes actual/resolvedAt fields: it neither
adds nor removes entries and keeps creation time, coin, creation price and
both forecasts of every entry. -/
theorem claim_C10_resolve_frame {α : Type} (now : ℤ) (lk : α → Option ℚ)
    (h : List (HistEntry α)) :
    (resolveHistory now lk h).length = h.length ∧
    (resolveHistory now lk h).map entryCore = h.map entryCore := by
  constructor
  · unfold resolveHistory
    exact List.length_map h _
  · unfold resolveHistory
    rw [List.map_map]
    exact List.map_congr_left fun e _ => resolveEntry_core now lk e

/-- C6: `recordPrediction` leaves the ledger unchanged when the newest entry
for the coin is younger than 55 s; otherwise it appends one pending entry,
evicting the oldest entry when the ledger is full; the `MAX_HISTORY` bound
is preserved. -/
theorem claim_C6_record_spec {α : Type} [DecidableEq α] (now : ℤ) (coinId : α)
    (price p1m p1d : ℚ) (h : List (HistEntry α)) (hlen : h.length ≤ MAX_HISTORY) :
    (recordPrediction now coinId price p1m p1d h).length ≤ MAX_HISTORY ∧
    (∀ last, lastForCoin h coinId = some last → now - last.ts < 55000 →
      recordPrediction now coinId price p1m p1d h = h) ∧
    ((∀ last, lastForCoin h coinId = some last → ¬ now - last.ts < 55000) →
      recordPrediction now coinId price p1m p1d h =
        (if h.length = MAX_HISTORY then h.drop 1 else h) ++
          [⟨now, coinId, price, p1m, p1d, none, none, none, none⟩]) := by
  have hM : MAX_HISTORY = 100 := rfl
  set e0 : HistEntry α := ⟨now, coinId, price, p1m, p1d, none, none, none, none⟩ with he0
  have hpush : (if (h ++ [e0]).length > MAX_HISTORY
      then (h ++ [e0]).drop ((h ++ [e0]).length - MAX_HISTORY) else h ++ [e0]) =
      (if h.length = MAX_HISTORY then h.drop 1 else h) ++ [e0] := by
    rcases Nat.lt_or_ge h.length MAX_HISTORY with hc | hc
    · rw [if_neg (by simp; omega), if_neg (by omega)]
    · have heq : h.length = MAX_HISTORY := le_antisymm hlen hc
      rw [if_pos (by simp; omega), if_pos heq]
      have h3 : (h ++ [e0]).length - MAX_HISTORY = 1 := by simp; omega
      rw [h3, List.drop_append_of_le_length (by omega)]
  have hlenPush : ((if h.length = MAX_HISTORY then h.drop 1 else h) ++ [e0]).length
      ≤ MAX_HISTORY := by
    rcases Nat.lt_or_ge h.length MAX_HISTORY with hc | hc
    · rw [if_neg (by omega)]
      simp
      omega
    · have heq : h.length = MAX_HISTORY := le_antisymm hlen hc
      rw [if_pos heq]
      simp
      omega
  cases hlast : lastForCoin h coinId with
  | none =>
    have hcond : recordPrediction now coinId price p1m p1d h =
        (if h.length = MAX_HISTORY then h.drop 1 else h) ++ [e0] := by
      unfold recordPrediction
      rw [hlast]
      simpa using hpush
    refine ⟨by rw [hcond]; exact hlenPush, ?_, fun _ => hcond⟩
    intro last hl
    exact absurd hl (by simp)
  | some last =>
    by_cases hyoung : now - last.ts < 55000
    · have hcond : recordPrediction now coinId price p1m p1d h = h := by
        unfold recordPrediction
        rw [hlast, if_pos (by simp [hyoung])]
      refine ⟨by rw [hcond]; exact hlen, fun _ _ _ => hcond, ?_⟩
      intro hall
      exact absurd hyoung (hall last rfl)
    · have hcond : recordPrediction now coinId price p1m p1d h =
          (if h.length = MAX_HISTORY then h.drop 1 else h) ++ [e0] := by
        unfold recordPrediction
        rw [hlast, if_neg (by simp [hyoung])]
        simpa using hpush
      refine ⟨by rw [hcond]; exact hlenPush, ?_, fun _ => hcond⟩
      intro l hl hy
      cases hl
      exact absurd hy hyoung

theorem accuracy_bounds_aux (hit len : ℕ) (hle : hit ≤ len) (hpos : 0 < len) :
    0 ≤ (hit : ℚ) / (len : ℚ) * 100 ∧ (hit : ℚ) / (len : ℚ) * 100 ≤ 100 := by
  have hlen0 : (0 : ℚ) < (len : ℚ) := by exact_mod_cast hpos
  constructor
  · positivity
  · have h1 : (hit : ℚ) / (len : ℚ) ≤ 1 := by
      rw [div_le_one hlen0]
      exact_mod_cast hle
    calc (hit : ℚ) / (len : ℚ) * 100 ≤ 1 * 100 := by
          exact mul_le_mul_of_nonneg_right h1 (by norm_num)
      _ = 100 := by norm_num

/-- C9: each hit-rate and mean-error statistic is `none` exactly when the
matching resolved count is zero, and a returned hit rate lies in [0, 100]. -/
theorem claim_C9_stats_guarded {α : Type} [DecidableEq α] (filter : Option α)
    (h : List (HistEntry α)) :
    ((getHistoryStats filter h).accuracy1m = none ↔
      (getHistoryStats filter h).resolved1m = 0) ∧
    ((getHistoryStats filter h).avgErr1m = none ↔
      (getHistoryStats filter h).resolved1m = 0) ∧
    ((getHistoryStats filter h).accuracy1d = none ↔
      (getHistoryStats filter h).resolved1d = 0) ∧
    ((getHistoryStats filter h).avgErr1d = none ↔
      (getHistoryStats filter h).resolved1d = 0) ∧
    (∀ a, (getHistoryStats filter h).accuracy1m = some a → 0 ≤ a ∧ a ≤ 100) ∧
    (∀ a, (getHistoryStats filter h).accuracy1d = some a → 0 ≤ a ∧ a ≤ 100) := by
  simp only [getHistoryStats]
  refine ⟨?_, ?_, ?_, ?_, ?_, ?_⟩
  · split <;> rename_i hc
    · exact iff_of_false (by simp) (by omega)
    · exact iff_of_true rfl (by omega)
  · split <;> rename_i hc
    · exact iff_of_false (by simp) (by omega)
    · exact iff_of_true rfl (by omega)
  · split <;> rename_i hc
    · exact iff_of_false (by simp) (by omega)
    · exact iff_of_true rfl (by omega)
  · split <;> rename_i hc
    · exact iff_of_false (by simp) (by omega)
    · exact iff_of_true rfl (by omega)
  · intro a ha
    split at ha
    · rename_i hpos
      cases ha
      exact accuracy_bounds_aux _ _ (List.length_filter_le _ _) hpos
    · cases ha
  · intro a ha
    split at ha
    · rename_i hpos
      cases ha
      exact accuracy_bounds_aux _ _ (List.length_filter_le _ _) hpos
    · cases ha

theorem consensus_eq_majority (s : Signals) :
    consensusOf s = majorityVote ((signalsList s).map SignalInfo.direction) := by
  unfold consensusOf majorityVote
  rw [List.countP_map, List.countP_map, List.countP_eq_length_filter,
    List.countP_eq_length_filter]
  rfl

theorem trenddir_cases (d : TrendDir) :
    d = TrendDir.bullish ∨ d = TrendDir.bearish ∨ d = TrendDir.neutral := by
  cases d <;> simp

/-- C5: the consensus is always one of bullish/bearish/neutral and equals
the majority vote over the seven per-indicator directions, ties neutral. -/
theorem claim_C5_sentiment_majority (price : ℚ) (hCloses dCloses hHighs hLows : List ℚ) :
    (computePrediction price hCloses dCloses hHighs hLows).overall =
      majorityVote (((signalsList
        (computePrediction price hCloses dCloses hHighs hLows).signals)).map
          SignalInfo.direction) ∧
    ((computePrediction price hCloses dCloses hHighs hLows).overall = TrendDir.bullish ∨
     (computePrediction price hCloses dCloses hHighs hLows).overall = TrendDir.bearish ∨
     (computePrediction price hCloses dCloses hHighs hLows).overall = TrendDir.neutral) := by
  constructor
  · have hs : (computePrediction price hCloses dCloses hHighs hLows).overall =
        consensusOf (computePrediction price hCloses dCloses hHighs hLows).signals := rfl
    rw [hs, consensus_eq_majority]
  · exact trenddir_cases _

theorem computePrediction_oneMinute (price : ℚ) (hCloses dCloses hHighs hLows : List ℚ) :
    (computePrediction price hCloses dCloses hHighs hLows).oneMinute =
      price * (1 + mRawShort price hCloses dCloses hHighs hLows *
        min (atrPctOf price hHighs hLows hCloses * 8) 0.03) := rfl

theorem computePrediction_oneDay (price : ℚ) (hCloses dCloses hHighs hLows : List ℚ) :
    (computePrediction price hCloses dCloses hHighs hLows).oneDay =
      price * (1 + mRawLong price hCloses dCloses hHighs hLows *
        min (atrPctOf price hHighs hLows hCloses * 80) 0.15) := rfl

theorem computePrediction_EMA_dir (price : ℚ) (hCloses dCloses hHighs hLows : List ℚ) :
    (computePrediction price hCloses dCloses hHighs hLows).signals.EMA.direction =
      if emaSignalOf price hCloses ≥ 0 then TrendDir.bullish else TrendDir.bearish := rfl

theorem computePrediction_RSI_dir (price : ℚ) (hCloses dCloses hHighs hLows : List ℚ) :
    (computePrediction price hCloses dCloses hHighs hLows).signals.RSI.direction =
      (if rsiSignalOf (calcRSI hCloses 14).value > 0 then TrendDir.bullish
       else if rsiSignalOf (calcRSI hCloses 14).value < 0 then TrendDir.bearish
       else TrendDir.neutral) := rfl

theorem computePrediction_MACD_dir (price : ℚ) (hCloses dCloses hHighs hLows : List ℚ) :
    (computePrediction price hCloses dCloses hHighs hLows).signals.MACD.direction =
      if (calcMACD hCloses).histogram ≥ 0 then TrendDir.bullish else TrendDir.bearish := rfl

theorem computePrediction_BB_dir (price : ℚ) (hCloses dCloses hHighs hLows : List ℚ) :
    (computePrediction price hCloses dCloses hHighs hLows).signals.BB.direction =
      (if bbSignalOf (calcBollinger hCloses 20 2).pctB > 0 then TrendDir.bullish
       else if bbSignalOf (calcBollinger hCloses 20 2).pctB < 0 then TrendDir.bearish
       else TrendDir.neutral) := rfl

theorem computePrediction_Stoch_dir (price : ℚ) (hCloses dCloses hHighs hLows : List ℚ) :
    (computePrediction price hCloses dCloses hHighs hLows).signals.Stoch.direction =
      (if stochSignalOf (calcStochastic hHighs hLows hCloses 14 3) > 0 then TrendDir.bullish
       else if stochSignalOf (calcStochastic hHighs hLows hCloses 14 3) < 0 then TrendDir.bearish
       else TrendDir.neutral) := rfl

theorem computePrediction_ATR_dir (price : ℚ) (hCloses dCloses hHighs hLows : List ℚ) :
    (computePrediction price hCloses dCloses hHighs hLows).signals.ATR.direction =
      TrendDir.neutral := rfl

theorem computePrediction_MeanRev_dir (price : ℚ) (hCloses dCloses hHighs hLows : List ℚ) :
    (computePrediction price hCloses dCloses hHighs hLows).signals.MeanRev.direction =
      if meanRevSignalOf price dCloses > 0 then TrendDir.bullish else TrendDir.bearish := rfl

/-- C2 (amended): RSI, Bollinger and Stochastic directions are the strict
sign of their own signal with neutral at exactly 0 and ATR is always
neutral; EMA and MACD map a zero signal to bullish and MeanRev maps a zero
signal to bearish. -/
theorem claim_C2_direction_signs (price : ℚ) (hCloses dCloses hHighs hLows : List ℚ) :
    ((0 < emaSignalOf price hCloses →
        (computePrediction price hCloses dCloses hHighs hLows).signals.EMA.direction =
          TrendDir.bullish) ∧
     (emaSignalOf price hCloses < 0 →
        (computePrediction price hCloses dCloses hHighs hLows).signals.EMA.direction =
          TrendDir.bearish) ∧
     (emaSignalOf price hCloses = 0 →
        (computePrediction price hCloses dCloses hHighs hLows).signals.EMA.direction =
          TrendDir.bullish)) ∧
    ((0 < rsiSignalOf (calcRSI hCloses 14).value →
        (computePrediction price hCloses dCloses hHighs hLows).signals.RSI.direction =
          TrendDir.bullish) ∧
     (rsiSignalOf (calcRSI hCloses 14).value < 0 →
        (computePrediction price hCloses dCloses hHighs hLows).signals.RSI.direction =
          TrendDir.bearish) ∧
     (rsiSignalOf (calcRSI hCloses 14).value = 0 →
        (computePrediction price hCloses dCloses hHighs hLows).signals.RSI.direction =
          TrendDir.neutral)) ∧
    ((0 < (calcMACD hCloses).histogram →
        (computePrediction price hCloses dCloses hHighs hLows).signals.MACD.direction =
          TrendDir.bullish) ∧
     ((calcMACD hCloses).histogram < 0 →
        (computePrediction price hCloses dCloses hHighs hLows).signals.MACD.direction =
          TrendDir.bearish) ∧
     ((calcMACD hCloses).histogram = 0 →
        (computePrediction price hCloses dCloses hHighs hLows).signals.MACD.direction =
          TrendDir.bullish)) ∧
    ((0 < bbSignalOf (calcBollinger hCloses 20 2).pctB →
        (computePrediction price hCloses dCloses hHighs hLows).signals.BB.direction =
          TrendDir.bullish) ∧
     (bbSignalOf (calcBollinger hCloses 20 2).pctB < 0 →
        (computePrediction price hCloses dCloses hHighs hLows).signals.BB.direction =
          TrendDir.bearish) ∧
     (bbSignalOf (calcBollinger hCloses 20 2).pctB = 0 →
        (computePrediction price hCloses dCloses hHighs hLows).signals.BB.direction =
          TrendDir.neutral)) ∧
    ((0 < stochSignalOf (calcStochastic hHighs hLows hCloses 14 3) →
        (computePrediction price hCloses dCloses hHighs hLows).signals.Stoch.direction =
          TrendDir.bullish) ∧
     (stochSignalOf (calcStochastic hHighs hLows hCloses 14 3) < 0 →
        (computePrediction price hCloses dCloses hHighs hLows).signals.Stoch.direction =
          TrendDir.bearish) ∧
     (stochSignalOf (calcStochastic hHighs hLows hCloses 14 3) = 0 →
        (computePrediction price hCloses dCloses hHighs hLows).signals.Stoch.direction =
          TrendDir.neutral)) ∧
    ((computePrediction price hCloses dCloses hHighs hLows).signals.ATR.direction =
      TrendDir.neutral) ∧
    ((0 < meanRevSignalOf price dCloses →
        (computePrediction price hCloses dCloses hHighs hLows).signals.MeanRev.direction =
          TrendDir.bullish) ∧
     (meanRevSignalOf price dCloses < 0 →
        (computePrediction price hCloses dCloses hHighs hLows).signals.MeanRev.direction =
          TrendDir.bearish) ∧
     (meanRevSignalOf price dCloses = 0 →
        (computePrediction price hCloses dCloses hHighs hLows).signals.MeanRev.direction =
          TrendDir.bearish)) := by
  rw [computePrediction_EMA_dir, computePrediction_RSI_dir, computePrediction_MACD_dir,
    computePrediction_BB_dir, computePrediction_Stoch_dir, computePrediction_MeanRev_dir]
  refine ⟨⟨?_, ?_, ?_⟩, ⟨?_, ?_, ?_⟩, ⟨?_, ?_, ?_⟩, ⟨?_, ?_, ?_⟩, ⟨?_, ?_, ?_⟩,
    computePrediction_ATR_dir price hCloses dCloses hHighs hLows, ⟨?_, ?_, ?_⟩⟩ <;>
    intro h
  · rw [if_pos (le_of_lt h)]
  · rw [if_neg (not_le.2 h)]
  · rw [if_pos (le_of_eq h.symm)]
  · rw [if_pos h]
  · rw [if_neg (by linarith), if_pos h]
  · rw [if_neg (by rw [h]; exact lt_irrefl 0), if_neg (by rw [h]; exact lt_irrefl 0)]
  · rw [if_pos (le_of_lt h)]
  · rw [if_neg (not_le.2 h)]
  · rw [if_pos (le_of_eq h.symm)]
  · rw [if_pos h]
  · rw [if_neg (by linarith), if_pos h]
  · rw [if_neg (by rw [h]; exact lt_irrefl 0), if_neg (by rw [h]; exact lt_irrefl 0)]
  · rw [if_pos h]
  · rw [if_neg (by linarith), if_pos h]
  · rw [if_neg (by rw [h]; exact lt_irrefl 0), if_neg (by rw [h]; exact lt_irrefl 0)]
  · rw [if_pos h]
  · rw [if_neg (by linarith)]
  · rw [if_neg (by rw [h]; exact lt_irrefl 0)]

theorem emaFrom_nonneg (k prev : ℚ) (l : List ℚ) (hk0 : 0 ≤ k) (hk1 : k ≤ 1)
    (hp : 0 ≤ prev) (hl : ∀ x ∈ l, 0 ≤ x) : ∀ y ∈ emaFrom k prev l, 0 ≤ y := by
  induction l generalizing prev with
  | nil => intro y hy; cases hy
  | cons d rest ih =>
    intro y hy
    have hd : 0 ≤ d := hl d (by simp)
    have hstep : 0 ≤ d * k + prev * (1 - k) := by
      have h1 : 0 ≤ d * k := mul_nonneg hd hk0
      have h2 : 0 ≤ prev * (1 - k) := mul_nonneg hp (by linarith)
      linarith
    rw [emaFrom] at hy
    rcases List.mem_cons.1 hy with h | h
    · rw [h]; exact hstep
    · exact ih (d * k + prev * (1 - k)) hstep (fun x hx => hl x (by simp [hx])) y h

theorem ema_mem_nonneg (l : List ℚ) (period : ℕ) (hk1 : (2 : ℚ) / ((period : ℚ) + 1) ≤ 1)
    (hl : ∀ x ∈ l, 0 ≤ x) : ∀ y ∈ ema l period, 0 ≤ y := by
  have hk0 : 0 ≤ (2 : ℚ) / ((period : ℚ) + 1) :=
    div_nonneg (by norm_num) (by positivity)
  cases l with
  | nil => intro y hy; cases hy
  | cons d rest =>
    intro y hy
    rw [ema] at hy
    rcases List.mem_cons.1 hy with h | h
    · rw [h]; exact hl d (by simp)
    · exact emaFrom_nonneg _ _ rest hk0 hk1 (hl d (by simp))
        (fun x hx => hl x (by simp [hx])) y h

theorem getLastD_nonneg (l : List ℚ) (d : ℚ) (hl : ∀ x ∈ l, 0 ≤ x) (hd : 0 ≤ d) :
    0 ≤ l.getLastD d := by
  induction l generalizing d with
  | nil => exact hd
  | cons a rest ih =>
    rw [List.getLastD_cons]
    exact ih a (fun x hx => hl x (by simp [hx])) (hl a (by simp))

theorem trueRanges_nonneg (highs lows closes : List ℚ)
    (h0 : lows.getD 0 0 ≤ highs.getD 0 0) : ∀ x ∈ trueRanges highs lows closes, 0 ≤ x := by
  intro x hx
  rw [trueRanges] at hx
  rcases List.mem_cons.1 hx with h | h
  · rw [h]; linarith
  · rcases List.mem_map.1 h with ⟨j, _, hj⟩
    rw [← hj]
    unfold trAt
    have := abs_nonneg (highs.getD (j + 1) 0 - closes.getD (j + 1 - 1) 0)
    have hmax : |highs.getD (j + 1) 0 - closes.getD (j + 1 - 1) 0| ≤
        max |highs.getD (j + 1) 0 - closes.getD (j + 1 - 1) 0|
          |lows.getD (j + 1) 0 - closes.getD (j + 1 - 1) 0| := le_max_left _ _
    have := le_max_right (highs.getD (j + 1) 0 - lows.getD (j + 1) 0)
      (max |highs.getD (j + 1) 0 - closes.getD (j + 1 - 1) 0|
        |lows.getD (j + 1) 0 - closes.getD (j + 1 - 1) 0|)
    linarith

theorem atr_value_nonneg (highs lows closes : List ℚ)
    (h0 : lows.getD 0 0 ≤ highs.getD 0 0) : 0 ≤ (calcATR highs lows closes 14).value := by
  unfold calcATR
  exact getLastD_nonneg _ _
    (ema_mem_nonneg _ 14 (by norm_num) (trueRanges_nonneg highs lows closes h0))
    (le_refl 0)

theorem cap_bound (m c cap : ℚ) (hm : |m| ≤ 1) (hc0 : 0 ≤ c) (hcap : 0 ≤ cap) :
    |m * min c cap| ≤ cap := by
  rw [abs_mul]
  have h1 : |min c cap| = min c cap := abs_of_nonneg (le_min hc0 hcap)
  rw [h1]
  calc |m| * min c cap ≤ 1 * min c cap :=
        mul_le_mul_of_nonneg_right hm (le_min hc0 hcap)
    _ = min c cap := one_mul _
    _ ≤ cap := min_le_right _ _

/-- C1 (amended): the 3 % / 15 % caps bound the volatility multiplier, so
the relative forecast move is bounded by the cap times the magnitude of the
raw composite score; the claimed absolute bounds hold whenever that
magnitude is at most 1 (and the first candle is well-formed, making the ATR
nonnegative). -/
theorem claim_C1_caps (price : ℚ) (hCloses dCloses hHighs hLows : List ℚ)
    (hp : 0 < price) (hhl : hLows.getD 0 0 ≤ hHighs.getD 0 0)
    (hs : |mRawShort price hCloses dCloses hHighs hLows| ≤ 1)
    (hl : |mRawLong price hCloses dCloses hHighs hLows| ≤ 1) :
    |(computePrediction price hCloses dCloses hHighs hLows).oneMinute / price - 1| ≤ 0.03 ∧
    |(computePrediction price hCloses dCloses hHighs hLows).oneDay / price - 1| ≤ 0.15 := by
  have hatr : 0 ≤ atrPctOf price hHighs hLows hCloses :=
    div_nonneg (atr_value_nonneg hHighs hLows hCloses hhl) (le_of_lt hp)
  have hp0 : price ≠ 0 := ne_of_gt hp
  constructor
  · rw [computePrediction_oneMinute, mul_comm price _, mul_div_assoc,
      div_self hp0, mul_one, add_sub_cancel_left]
    exact cap_bound _ _ _ hs (by positivity) (by norm_num)
  · rw [computePrediction_oneDay, mul_comm price _, mul_div_assoc,
      div_self hp0, mul_one, add_sub_cancel_left]
    exact cap_bound _ _ _ hl (by positivity) (by norm_num)

theorem replicate_none_getLastD (n : ℕ) :
    (List.replicate n (none : Option ℚ)).getLastD none = none := by
  induction n with
  | zero => rfl
  | succ m ih =>
    rw [List.replicate_succ, List.getLastD_cons]
    exact ih

theorem sma_short_all_none (data : List ℚ) (period i : ℕ) (hi : i < data.length)
    (hlen : data.length < period) : (sma data period).getD i none = none := by
  unfold sma
  rw [List.getD_eq_getElem _ _ (by rw [List.length_map, List.length_range]; exact hi),
    List.getElem_map, List.getElem_range]
  unfold smaAt
  rw [if_pos (by omega)]

/-- C3 (amended): with fewer than 20 closes every Bollinger band entry is
`null`, and the last upper and lower band fall back to the last price
scaled by 1.02 and 0.98 (±2 %), keeping %B and bandwidth defined. -/
theorem claim_C3_boll_fallback (data : List ℚ) (_hne : data ≠ []) (hlen : data.length < 20) :
    (calcBollinger data 20 2).lastUpper = data.getLastD 0 * 1.02 ∧
    (calcBollinger data 20 2).lastLower = data.getLastD 0 * 0.98 := by
  have hupper : ∀ f : ℕ → Option ℚ,
      (∀ i, i < data.length → f i = none) →
      ((List.range data.length).map f).getLastD none = none := by
    intro f hf
    have : (List.range data.length).map f =
        (List.range data.length).map (Function.const ℕ (none : Option ℚ)) :=
      List.map_congr_left fun i hi => hf i (List.mem_range.1 hi)
    rw [this, List.map_const, List.length_range]
    exact replicate_none_getLastD data.length
  constructor
  · show jsOr (((List.range data.length).map fun i =>
        match (sma data 20).getD i none with
        | none => none
        | some m => some (m + 2 * bollStdAt data 20 i m)).getLastD none)
          (data.getLastD 0 * 1.02) = data.getLastD 0 * 1.02
    rw [hupper _ fun i hi => by rw [sma_short_all_none data 20 i hi hlen]]
    rfl
  · show jsOr (((List.range data.length).map fun i =>
        match (sma data 20).getD i none with
        | none => none
        | some m => some (m - 2 * bollStdAt data 20 i m)).getLastD none)
          (data.getLastD 0 * 0.98) = data.getLastD 0 * 0.98
    rw [hupper _ fun i hi => by rw [sma_short_all_none data 20 i hi hlen]]
    rfl

theorem rsiLoop_zero_loss (ds : List ℚ) (hds : ∀ d ∈ ds, 0 ≤ d) :
    ∀ ag, rsiLoop 14 ag 0 ds = List.replicate ds.length 100 := by
  induction ds with
  | nil => intro ag; rfl
  | cons d rest ih =>
    intro ag
    have hd : 0 ≤ d := hds d (by simp)
    have hmax : max (-d) 0 = 0 := max_eq_right (by linarith)
    simp only [rsiLoop, hmax, List.length_cons, List.replicate_succ]
    norm_num
    exact ih (fun x hx => hds x (by simp [hx])) _

/-- C4 (amended): with at least 16 closes (so the Wilder loop runs at least
once) and no negative delta (zero smoothed average loss), the RSI saturates
at exactly 100. -/
theorem claim_C4_rsi_saturates (data : List ℚ) (hlen : 16 ≤ data.length)
    (hmono : ∀ d ∈ deltasOf data, 0 ≤ d) : (calcRSI data 14).value = 100 := by
  have hds_len : (deltasOf data).length = data.length - 1 := by
    unfold deltasOf
    rw [List.length_map, List.length_zip, List.length_tail]
    omega
  have hlS : ((deltasOf data).take 14).map (fun d => if d ≥ 0 then 0 else -d) =
      List.replicate (((deltasOf data).take 14).length) (0 : ℚ) := by
    apply List.map_eq_replicate_iff.2
    intro d hd
    rw [if_pos (hmono d (List.mem_of_mem_take hd))]
  unfold calcRSI
  rw [if_neg (by omega)]
  simp only
  have hzero : (((deltasOf data).take 14).map fun d => if d ≥ 0 then 0 else -d).sum = 0 := by
    rw [hlS, List.sum_replicate, smul_zero]
  rw [hzero]
  norm_num
  rw [rsiLoop_zero_loss _ (fun x hx => hmono x (List.mem_of_mem_drop hx)) _]
  rw [List.getLast?_replicate,
    if_neg (by rw [List.length_drop]; omega)]
  rfl

set_option maxRecDepth 8000

/-- C1 counterexample: a valid input (positive price, non-empty equal-length
hourly series, non-empty daily series) whose forecasts move by far more
than 3 % / 15 % of the current price. -/
theorem claim_C1_cap_cex :
    0 < (1 : ℚ) ∧ ([100, 1] : List ℚ).length = 2 ∧ ([1] : List ℚ).length = 1 ∧
    ¬ |(computePrediction 1 [100, 1] [1] [100, 1] [100, 1]).oneMinute / 1 - 1| ≤ 0.03 ∧
    ¬ |(computePrediction 1 [100, 1] [1] [100, 1] [100, 1]).oneDay / 1 - 1| ≤ 0.15 := by
  with_unfolding_all decide

/-- C1 witness: the amended bound applied to a concrete flat market. -/
theorem claim_C1_caps_witness :
    |(computePrediction 100 [100, 100] [100] [100, 100] [100, 100]).oneMinute / 100 - 1|
      ≤ 0.03 ∧
    |(computePrediction 100 [100, 100] [100] [100, 100] [100, 100]).oneDay / 100 - 1|
      ≤ 0.15 :=
  claim_C1_caps 100 [100, 100] [100] [100, 100] [100, 100] (by norm_num)
    (by with_unfolding_all decide) (by with_unfolding_all decide)
    (by with_unfolding_all decide)

/-- C2 counterexample: on a flat market the EMA signal, the MACD histogram
and the mean-reversion signal are all exactly 0, yet the recorded
directions are bullish, bullish and bearish — not neutral. -/
theorem claim_C2_cex :
    (computePrediction 100 [100, 100] [100] [100, 100] [100, 100]).signals.EMA.value = 0 ∧
    (computePrediction 100 [100, 100] [100] [100, 100] [100, 100]).signals.EMA.direction =
      TrendDir.bullish ∧
    (calcMACD [100, 100]).histogram = 0 ∧
    (computePrediction 100 [100, 100] [100] [100, 100] [100, 100]).signals.MACD.direction =
      TrendDir.bullish ∧
    meanRevSignalOf 100 [100] = 0 ∧
    (computePrediction 100 [100, 100] [100] [100, 100] [100, 100]).signals.MeanRev.direction =
      TrendDir.bearish := by
  with_unfolding_all decide

/-- C3 counterexample: a one-point series takes the fallback, which scales
the last price by 1.02 and 0.98, not by 1.002 and 0.995 as claimed. -/
theorem claim_C3_cex :
    ([100] : List ℚ).length < 20 ∧
    (calcBollinger [100] 20 2).lastUpper = 102 ∧
    ¬ (calcBollinger [100] 20 2).lastUpper = 100 * 1.002 ∧
    (calcBollinger [100] 20 2).lastLower = 98 ∧
    ¬ (calcBollinger [100] 20 2).lastLower = 100 * 0.995 := by
  with_unfolding_all decide

/-- C3 witness: the amended fallback at the concrete one-point series. -/
theorem claim_C3_witness :
    (calcBollinger [100] 20 2).lastUpper = ([100] : List ℚ).getLastD 0 * 1.02 ∧
    (calcBollinger [100] 20 2).lastLower = ([100] : List ℚ).getLastD 0 * 0.98 :=
  claim_C3_boll_fallback [100] (by simp) (by simp)

/-- C4 counterexample: a strictly increasing series of exactly 15 points
(all deltas positive, so the average loss is 0) returns RSI 50, not 100:
the Wilder loop never runs at that length. -/
theorem claim_C4_cex :
    ([0, 1, 2, 3, 4, 5, 6, 7, 8, 9, 10, 11, 12, 13, 14] : List ℚ).length = 15 ∧
    deltasOf [0, 1, 2, 3, 4, 5, 6, 7, 8, 9, 10, 11, 12, 13, 14] = List.replicate 14 1 ∧
    (calcRSI [0, 1, 2, 3, 4, 5, 6, 7, 8, 9, 10, 11, 12, 13, 14] 14).value = 50 ∧
    ¬ (calcRSI [0, 1, 2, 3, 4, 5, 6, 7, 8, 9, 10, 11, 12, 13, 14] 14).value = 100 := by
  with_unfolding_all decide

/-- C4 witness: sixteen strictly increasing points saturate the RSI at 100. -/
theorem claim_C4_witness :
    (calcRSI [0, 1, 2, 3, 4, 5, 6, 7, 8, 9, 10, 11, 12, 13, 14, 15] 14).value = 100 :=
  claim_C4_rsi_saturates [0, 1, 2, 3, 4, 5, 6, 7, 8, 9, 10, 11, 12, 13, 14, 15]
    (by with_unfolding_all decide) (by with_unfolding_all decide)

/-- C6 witness: recording into an empty ledger respects the capacity bound. -/
theorem claim_C6_record_spec_witness :
    (recordPrediction (0 : ℤ) (0 : ℕ) 100 101 102 ([] : List (HistEntry ℕ))).length
      ≤ MAX_HISTORY :=
  (claim_C6_record_spec 0 0 100 101 102 [] (by decide)).1
